import Mathlib

/-!
Verification of the SafeRL evaluation harness (scripts/eval.py).

This file gives a shallow embedding of the three pieces of logic in the
script - the experiment-directory locator verify_experiment_dir, the
checkpoint selector find_checkpoint_dir, and the rollout runner
run_rollouts - together with the path construction done in main.

Modelling conventions:
* The filesystem is abstracted by the results of the glob calls the code
  makes: a directory is represented by the list of its entry names, and a
  glob over a pattern becomes a filter over that list.
* Python exceptions become an Except with an error inductive
  (FileNotFoundError is the spec's CheckpointNotFound;
  InvalidExperimentDirStructure is the spec's InvalidLayout;
  ValueError is the error raised by a failing int(...) conversion).
* Python floats are modelled as Int (the claims under study only concern
  exact accumulation structure, never rounding).
* The environment, agent and info-serialization collaborators are opaque
  parameters bundled in EvalSetup; the environment's internal mutable
  state is threaded explicitly as a value of type S.
* The unbounded while-not-done loop is modelled with explicit fuel; fuel
  exhaustion stands for divergence and is flagged by a false "completed"
  Boolean, keeping the records written up to that point.
* Appends to the jsonlines log are modelled as a trace of FileEvents
  (openF / write / closeF), in the order the script performs them.
-/

namespace SafeRLEval

/-- Python exceptions raised by the script.
invalidExperimentDirStructure is the script's own exception class;
fileNotFound is FileNotFoundError (spec name: CheckpointNotFound);
valueError is the ValueError of a failed int(...) conversion. -/
inductive EvalError
  | invalidExperimentDirStructure : String → EvalError
  | fileNotFound : String → EvalError
  | valueError : EvalError
deriving DecidableEq

deriving instance DecidableEq for Except

/-- Decimal digit characters only (model of the strings accepted by the body
of Python int). -/
def isDigits (l : List Char) : Bool :=
  !l.isEmpty && l.all Char.isDigit

/-- Value of a nonempty list of decimal digits. -/
def digitsToNat (l : List Char) : Nat :=
  l.foldl (fun a c => 10 * a + (c.toNat - 48)) 0

/-- Modelled from the spec: Python's built-in int(str) conversion used at
eval.py lines 161-163, restricted to an optional sign followed by decimal
digits (the relevant domain for directory-name suffixes); none is the
ValueError raised on any other input. -/
def pyInt (s : String) : Option Int :=
  match s.data with
  | [] => none
  | c :: rest =>
    if c = '-' then (if isDigits rest then some (-(digitsToNat rest : Int)) else none)
    else if c = '+' then (if isDigits rest then some ((digitsToNat rest : Int)) else none)
    else if isDigits (c :: rest) then some ((digitsToNat (c :: rest) : Int)) else none

/-- Decimal digit character for d < 10. -/
def digitChar (d : Nat) : Char := Char.ofNat (48 + d)

/-- Fuelled decimal printer for naturals (most significant digit first). -/
def natDigitsAux : Nat → Nat → List Char
  | 0, _ => []
  | fuel + 1, n => if n < 10 then [digitChar n] else natDigitsAux fuel (n / 10) ++ [digitChar (n % 10)]

/-- Modelled from the spec: Python str(...) on an integer, used to build the
glob pattern (line 150) and the checkpoint-n / ckpt_n names in main. -/
def pyStr (i : Int) : String :=
  if i < 0 then ("-") ++ String.mk (natDigitsAux (i.natAbs + 1) i.natAbs)
  else String.mk (natDigitsAux (i.natAbs + 1) i.natAbs)

/-- Python s.split("_")[-1]: the text after the last underscore of s
(the whole of s when it has no underscore). Used at lines 152 and 159. -/
def afterLastUnderscore (s : String) : String :=
  String.mk ((s.data.reverse.takeWhile (fun c => c != '_')).reverse)

/-- Python slice s[:n] for n at most s.length, used at line 126. -/
def pyTake (s : String) (n : Nat) : String :=
  String.mk (s.data.take n)

/-- Membership of an entry name in the result of glob over the pattern
pre ++ "*" ++ suf: the name must start with pre, end with suf, and be long
enough that the star matches some (possibly empty) middle. -/
def matchesGlob (pre suf : String) (name : String) : Bool :=
  pre.data.isPrefixOf name.data && suf.data.isSuffixOf name.data
    && decide (pre.length + suf.length ≤ name.length)

/-- Embedding of verify_experiment_dir (eval.py lines 96-128).
The two glob calls are abstracted by has_params_direct (does
expr_dir_path/params.pkl exist?) and param_children (the names of the
immediate child directories that contain params.pkl, in glob order), so that
given and children below are exactly the lists the script's globs return. -/
def verify_experiment_dir (expr_dir_path : String) (has_params_direct : Bool)
    (param_children : List String) : Except EvalError String :=
  let params_file := "/params.pkl"
  let given : List String := if has_params_direct then [expr_dir_path ++ params_file] else []
  let children : List String := param_children.map (fun c => expr_dir_path ++ "/" ++ c ++ params_file)
  if given.length == 0 then
    if children.length == 0 then
      .error (.invalidExperimentDirStructure ("No params.pkl file found!"))
    else if children.length > 1 then
      .error (.invalidExperimentDirStructure ("More than one params.pkl file found!"))
    else
      let size := children.headI.length
      .ok (pyTake children.headI (size - params_file.length))
  else
    .ok expr_dir_path

/-- The glob calls of find_checkpoint_dir over expr_dir_path/checkpoint_*
plus a suffix (lines 150 and 157): full paths of the entries whose name
matches the pattern, in directory order. -/
def ckptGlob (expr_dir_path : String) (entries : List String) (pat_suffix : String) : List String :=
  (entries.filter (matchesGlob ("checkpoint_") pat_suffix)).map
    (fun name => expr_dir_path ++ "/" ++ name)

/-- The loop over ckpt_dirs of the no-requested-id branch (lines 156-163),
threading the ckpt_num / ckpt_num_str accumulators.
A suffix on which int(...) fails raises ValueError. -/
def selectMaxCkpt : List String → Int → Option String → Except EvalError (Int × Option String)
  | [], ckpt_num, ckpt_num_str => .ok (ckpt_num, ckpt_num_str)
  | d :: rest, ckpt_num, ckpt_num_str =>
    let file_num := afterLastUnderscore d
    match pyInt file_num with
    | none => .error .valueError
    | some v =>
      if ckpt_num < v then selectMaxCkpt rest v (some file_num)
      else selectMaxCkpt rest ckpt_num ckpt_num_str

/-- Embedding of find_checkpoint_dir (eval.py lines 131-165).
entries is the list of entry names of expr_dir_path, abstracting the
filesystem; the two branches follow the source: a requested id must match
exactly one checkpoint_*id entry, otherwise FileNotFoundError; with no
requested id the maximum integer suffix is selected starting from the
sentinel pair of -1 and none. -/
def find_checkpoint_dir (expr_dir_path : String) (entries : List String)
    (ckpt_num : Option Int) : Except EvalError (Int × Option String) :=
  match ckpt_num with
  | some n =>
    match ckptGlob expr_dir_path entries (pyStr n) with
    | [d] => .ok (n, some (afterLastUnderscore d))
    | _ => .error (.fileNotFound (("Checkpoint ") ++ pyStr n ++ " file not found"))
  | none =>
    selectMaxCkpt (ckptGlob expr_dir_path entries ("")) (-1) none

/-- os.path.join for a nonempty left part with no trailing slash and a
relative right part - the only shapes main joins. -/
def os_path_join (a b : String) : String := a ++ "/" ++ b

/-- The format call building checkpoint_ followed by ckpt_num_str in main
(line 185); Python formats None as the text "None". -/
def ckpt_dir_of (ckpt_num_str : Option String) : String :=
  ("checkpoint_") ++ (match ckpt_num_str with | none => "None" | some s => s)

/-- The format call building checkpoint- followed by ckpt_num in main (line 186). -/
def ckpt_filename_of (ckpt_num : Int) : String :=
  ("checkpoint-") ++ pyStr ckpt_num

/-- The format call building ckpt_ followed by ckpt_num in main (lines 182 and 192). -/
def ckpt_eval_subdir (ckpt_num : Int) : String :=
  ("ckpt_") ++ pyStr ckpt_num

/-- The full path of the evaluation log as computed by main
(lines 180-197 together with the eval.log argument of line 216): the
default expr/eval/ckpt_n is replaced, when --output_dir is given, by
output_dir/ckpt_n. -/
def eval_log_path (expr_dir_path : String) (output_dir : Option String) (ckpt_num : Int) : String :=
  let eval_dir_path := os_path_join expr_dir_path ("eval")
  let ckpt_eval_dir_path := os_path_join eval_dir_path (ckpt_eval_subdir ckpt_num)
  match output_dir with
  | none => ckpt_eval_dir_path ++ "/eval.log"
  | some o => os_path_join o (ckpt_eval_subdir ckpt_num) ++ "/eval.log"

/-- The log path as the spec's section 6 sentence words it:
the eval/ckpt_n/eval.log layout under output_dir-or-experiment-dir. This
definition follows the spec's words, to be compared with eval_log_path. -/
def spec_eval_log_path (expr_dir_path : String) (output_dir : Option String) (ckpt_num : Int) : String :=
  os_path_join (os_path_join (os_path_join (output_dir.getD expr_dir_path) ("eval"))
    (ckpt_eval_subdir ckpt_num)) ("eval.log")

/-- The opaque collaborators of run_rollouts: the RLLib agent
(compute_action), the environment (reset and step, with its hidden mutable
state threaded as S), and the serialization helpers of
saferl.environment.utils (is_jsonable, jsonify) together with the
float(...) and .tolist() coercions of lines 86-87. -/
structure EvalSetup (S O A I : Type) where
  compute_action : O → A
  reset : S → O × S
  step : S → A → O × Int × Bool × I × S
  is_jsonable : I → Bool
  jsonify : I → I
  action_to_floats : A → List Int
  obs_to_list : O → List Int

/-- One line of the jsonlines log: the state dict built at lines 81-90. -/
structure RolloutRecord (I : Type) where
  info : I
  actions : List Int
  obs : List Int
  rollout_num : Nat
  step_number : Nat
  episode_reward : Int
deriving DecidableEq

/-- One filesystem interaction with the log file: jsonlines.open in append
mode, writer.write, and the close performed on leaving the with-block. -/
inductive FileEvent (I : Type)
  | openF : FileEvent I
  | write : RolloutRecord I → FileEvent I
  | closeF : FileEvent I
deriving DecidableEq

/-- The while-not-done loop of run_rollouts (lines 73-93) for rollout
number i, with explicit fuel. Arguments after the fuel: current environment
state, current observation, step_num, episode_reward. Returns the
(state, reward) pairs of the records written in order (the reward is kept
alongside as a ghost value for specification), the final environment state,
and whether the loop exited normally (false = fuel exhausted, modelling a
diverging episode). -/
def rolloutLoop (ctx : EvalSetup S O A I) (i : Nat) :
    Nat → S → O → Nat → Int → List (RolloutRecord I × Int) × S × Bool
  | 0, s, _, _, _ => ([], s, false)
  | fuel + 1, s, obs, step_num, episode_reward =>
    let action := ctx.compute_action obs
    let res := ctx.step s action
    let obs2 := res.1
    let reward := res.2.1
    let done := res.2.2.1
    let info := res.2.2.2.1
    let s2 := res.2.2.2.2
    let step_num2 := step_num + 1
    let episode_reward2 := episode_reward + reward
    let state : RolloutRecord I :=
      { info := if ctx.is_jsonable info then info else ctx.jsonify info
        actions := ctx.action_to_floats action
        obs := ctx.obs_to_list obs2
        rollout_num := i
        step_number := step_num2
        episode_reward := episode_reward2 }
    if done then ([(state, reward)], s2, true)
    else
      let r := rolloutLoop ctx i fuel s2 obs2 step_num2 episode_reward2
      ((state, reward) :: r.1, r.2.1, r.2.2)

/-- The loop over range num_rollouts of run_rollouts (lines 65-93),
starting at rollout index i, with rem rollouts left.
Returns the trace of log-file events in program order, the per-rollout lists
of (record, reward) pairs (ghost grouping of the same records), the final
environment state, and whether every episode terminated. Each iteration
resets the environment, then opens the log, writes one record per step of
the while loop, and closes the log on leaving the with-block; a diverging
episode leaves the file open and ends the run. -/
def runFrom (ctx : EvalSetup S O A I) (fuel : Nat) :
    Nat → Nat → S → List (FileEvent I) × List (List (RolloutRecord I × Int)) × S × Bool
  | _, 0, s => ([], [], s, true)
  | i, rem + 1, s =>
    let r0 := ctx.reset s
    let obs := r0.1
    let s1 := r0.2
    let ep := rolloutLoop ctx i fuel s1 obs 0 0
    let pairs := ep.1
    let s2 := ep.2.1
    let ok := ep.2.2
    if ok then
      let rest := runFrom ctx fuel (i + 1) rem s2
      (.openF :: pairs.map (fun p => .write p.1) ++ [.closeF] ++ rest.1,
        pairs :: rest.2.1, rest.2.2.1, rest.2.2.2)
    else
      (.openF :: pairs.map (fun p => .write p.1), [pairs], s2, false)

/-- Embedding of run_rollouts (eval.py lines 50-93): run num_rollouts
episodes from rollout index 0. -/
def run_rollouts (ctx : EvalSetup S O A I) (fuel num_rollouts : Nat) (s0 : S) :
    List (FileEvent I) × List (List (RolloutRecord I × Int)) × S × Bool :=
  runFrom ctx fuel 0 num_rollouts s0

/-- The records carried by the write events of a trace, in order. -/
def writesOf (t : List (FileEvent I)) : List (RolloutRecord I) :=
  t.filterMap (fun e => match e with | .write r => some r | _ => none)

/-- Number of open events in a trace. -/
def countOpens (t : List (FileEvent I)) : Nat :=
  t.countP (fun e => match e with | .openF => true | _ => false)

/-- Number of close events in a trace. -/
def countCloses (t : List (FileEvent I)) : Nat :=
  t.countP (fun e => match e with | .closeF => true | _ => false)

/-- Number of write events in a trace. -/
def countWrites (t : List (FileEvent I)) : Nat :=
  (writesOf t).length

/-- Stub environment for concrete runs: state counts the steps taken since
the last reset, every episode terminates after exactly k steps, and step
number c+1 yields reward c+1. -/
def stubEnv (k : Nat) : EvalSetup Nat Unit Unit Unit :=
  { compute_action := fun _ => ()
    reset := fun _ => ((), 0)
    step := fun s _ => ((), (s : Int) + 1, s + 1 == k, (), s + 1)
    is_jsonable := fun _ => true
    jsonify := fun x => x
    action_to_floats := fun _ => []
    obs_to_list := fun _ => [] }

/-- A string whose text after the last underscore is a nonempty run of
decimal digits (the premise of the all-numeric-suffix claims). -/
def isDigitSuffix (d : String) : Prop :=
  (afterLastUnderscore d).data ≠ [] ∧ ∀ c ∈ (afterLastUnderscore d).data, c.isDigit = true

instance (d : String) : Decidable (isDigitSuffix d) := by
  unfold isDigitSuffix; infer_instance

/-- Ghost specification predicate for a run of records written by the step
loop: starting from step counter n and accumulated reward ep, each record
carries step number one past its predecessor and the running sum of the
rewards paired with the records. -/
def RecSpec {I : Type} : Nat → Int → List (RolloutRecord I × Int) → Prop
  | _, _, [] => True
  | n, ep, (rec, r) :: rest =>
    rec.step_number = n + 1 ∧ rec.episode_reward = ep + r ∧ RecSpec (n + 1) (ep + r) rest

/-- String concatenation acts as list concatenation on the underlying data. -/
lemma data_append (a b : String) : (a ++ b).data = a.data ++ b.data := rfl

/-- Stripping the length of b characters off the end of a ++ b gives a
(the slice performed at eval.py line 126). -/
lemma take_concat (a b : String) : pyTake (a ++ b) ((a ++ b).length - b.length) = a := by
  have h1 : (a ++ b).length - b.length = a.data.length := by
    show (a.data ++ b.data).length - b.data.length = a.data.length
    rw [List.length_append]
    omega
  show String.mk ((a.data ++ b.data).take ((a ++ b).length - b.length)) = a
  rw [h1, List.take_left]

lemma isPrefixOf_exists_suffix : ∀ (p l : List Char), p.isPrefixOf l = true → ∃ t, l = p ++ t := by
  intro p
  induction p with
  | nil => intro l _; exact ⟨l, rfl⟩
  | cons a p ih =>
    intro l h
    cases l with
    | nil => simp [List.isPrefixOf] at h
    | cons b l =>
      simp only [List.isPrefixOf, Bool.and_eq_true, beq_iff_eq] at h
      obtain ⟨t, ht⟩ := ih l h.2
      exact ⟨t, by rw [h.1, ht]; rfl⟩

lemma takeWhile_append_stop (p : Char → Bool) :
    ∀ (xs ys : List Char), (∃ a ∈ xs, p a = false) → (xs ++ ys).takeWhile p = xs.takeWhile p := by
  intro xs
  induction xs with
  | nil => intro ys h; simp at h
  | cons a xs ih =>
    intro ys h
    by_cases hpa : p a = true
    · have hx : ∃ b ∈ xs, p b = false := by
        rcases h with ⟨b, hb, hpb⟩
        rcases List.mem_cons.mp hb with rfl | hb
        · rw [hpa] at hpb; exact absurd hpb (by simp)
        · exact ⟨b, hb, hpb⟩
      simp [List.takeWhile_cons, hpa, ih ys hx]
    · have hpa' : p a = false := by simpa using hpa
      simp [List.takeWhile_cons, hpa']

lemma afterLast_of_data_append (s : String) (xs ys : List Char)
    (hd : s.data = xs ++ ys) (h : '_' ∈ ys) :
    afterLastUnderscore s = afterLastUnderscore (String.mk ys) := by
  unfold afterLastUnderscore
  rw [hd, List.reverse_append]
  rw [takeWhile_append_stop _ ys.reverse xs.reverse ⟨'_', by simpa using h, by simp⟩]

/-- Splitting a full path on its last underscore only sees the entry name
when the name itself contains an underscore. -/
lemma afterLast_fullpath (expr name : String) (h : '_' ∈ name.data) :
    afterLastUnderscore (expr ++ "/" ++ name) = afterLastUnderscore name :=
  afterLast_of_data_append _ (expr ++ "/").data name.data rfl h

/-- Every entry matching a checkpoint glob pattern contains an underscore. -/
lemma matchesGlob_underscore (suf name : String)
    (h : matchesGlob ("checkpoint_") suf name = true) : '_' ∈ name.data := by
  unfold matchesGlob at h
  simp only [Bool.and_eq_true] at h
  obtain ⟨t, ht⟩ := isPrefixOf_exists_suffix _ _ h.1.1
  rw [ht]
  simp

/-- C4: when the configuration artifact params.pkl is directly in the given
directory, verify_experiment_dir returns the path unchanged for every
population of the child directories - the child-search branch is skipped
and no InvalidExperimentDirStructure ambiguity failure can be raised. -/
theorem c4_resolve_direct_artifact (expr_dir_path : String) (param_children : List String) :
    verify_experiment_dir expr_dir_path true param_children = .ok expr_dir_path := rfl

/-- C5: when the artifact is not directly present, verify_experiment_dir
returns the unique child containing it, and fails with the script's
InvalidExperimentDirStructure error for zero or for two-or-more such
children. -/
theorem c5_resolve_child_search (expr_dir_path : String) (param_children : List String) :
    verify_experiment_dir expr_dir_path false param_children
      = match param_children with
        | [] => .error (.invalidExperimentDirStructure ("No params.pkl file found!"))
        | [c] => .ok (expr_dir_path ++ "/" ++ c)
        | _ => .error (.invalidExperimentDirStructure ("More than one params.pkl file found!")) := by
  rcases param_children with _ | ⟨c, _ | ⟨c2, rest⟩⟩
  · rfl
  · have h := take_concat (expr_dir_path ++ "/" ++ c) ("/params.pkl")
    show Except.ok (pyTake ((expr_dir_path ++ "/" ++ c) ++ "/params.pkl")
      (((expr_dir_path ++ "/" ++ c) ++ "/params.pkl").length - ("/params.pkl" : String).length)) = _
    rw [h]
  · show verify_experiment_dir expr_dir_path false (c :: c2 :: rest)
      = .error (.invalidExperimentDirStructure ("More than one params.pkl file found!"))
    unfold verify_experiment_dir
    simp

/-- C2 counterexample: with --output_dir given, the log goes to
output_dir/ckpt_5/eval.log, not to the eval/ckpt_5 layout under output_dir
that the spec sentence describes. -/
theorem c2_output_dir_layout_counterexample :
    eval_log_path ("E") (some ("O")) 5 = "O/ckpt_5/eval.log"
    ∧ spec_eval_log_path ("E") (some ("O")) 5 = "O/eval/ckpt_5/eval.log"
    ∧ eval_log_path ("E") (some ("O")) 5 ≠ spec_eval_log_path ("E") (some ("O")) 5 :=
  ⟨by decide, by decide, by decide⟩

/-- C2 amended: when --output_dir is supplied the evaluation log is written
to output_dir/ckpt_n/eval.log - output_dir replaces the whole
experiment_dir/eval segment, not just the experiment directory root. -/
theorem c2_output_dir_layout_amended (expr_dir_path o : String) (n : Int) :
    eval_log_path expr_dir_path (some o) n = o ++ "/ckpt_" ++ pyStr n ++ "/eval.log" := by
  apply String.ext
  simp [eval_log_path, os_path_join, ckpt_eval_subdir, data_append, List.append_assoc]

/-- The requested-id branch of find_checkpoint_dir written out. -/
lemma find_some_eq (expr : String) (entries : List String) (n : Int) :
    find_checkpoint_dir expr entries (some n)
      = (match (entries.filter (matchesGlob ("checkpoint_") (pyStr n))).map
            (fun name => expr ++ "/" ++ name) with
        | [d] => .ok (n, some (afterLastUnderscore d))
        | _ => .error (.fileNotFound (("Checkpoint ") ++ pyStr n ++ " file not found"))) := rfl

lemma find_some_of_singleton (expr : String) (entries : List String) (n : Int) (name : String)
    (h : entries.filter (matchesGlob ("checkpoint_") (pyStr n)) = [name]) :
    find_checkpoint_dir expr entries (some n) = .ok (n, some (afterLastUnderscore name)) := by
  have hglob : matchesGlob ("checkpoint_") (pyStr n) name = true :=
    List.of_mem_filter (h ▸ List.mem_singleton_self name)
  rw [find_some_eq, h]
  show Except.ok (n, some (afterLastUnderscore (expr ++ "/" ++ name))) = _
  rw [afterLast_fullpath expr name (matchesGlob_underscore _ _ hglob)]

lemma find_some_of_not_one (expr : String) (entries : List String) (n : Int)
    (h : (entries.filter (matchesGlob ("checkpoint_") (pyStr n))).length ≠ 1) :
    find_checkpoint_dir expr entries (some n)
      = .error (.fileNotFound (("Checkpoint ") ++ pyStr n ++ " file not found")) := by
  rw [find_some_eq]
  rcases hl : entries.filter (matchesGlob ("checkpoint_") (pyStr n)) with _ | ⟨d, _ | ⟨d2, tl⟩⟩
  · rfl
  · rw [hl] at h; simp at h
  · rfl

/-- C3: for a requested checkpoint id n, the selector succeeds exactly when
one entry matches the checkpoint_*n glob; it then returns n together with
the text after the last underscore of the matched name (possibly carrying
extra leading digits from substring matching); with zero or multiple
matches it fails with the FileNotFoundError the spec calls
CheckpointNotFound. -/
theorem c3_requested_checkpoint_selection (expr : String) (entries : List String) (n : Int) :
    ((∃ v, find_checkpoint_dir expr entries (some n) = .ok v)
        ↔ (entries.filter (matchesGlob ("checkpoint_") (pyStr n))).length = 1)
    ∧ (∀ name, entries.filter (matchesGlob ("checkpoint_") (pyStr n)) = [name] →
        find_checkpoint_dir expr entries (some n) = .ok (n, some (afterLastUnderscore name)))
    ∧ ((entries.filter (matchesGlob ("checkpoint_") (pyStr n))).length ≠ 1 →
        find_checkpoint_dir expr entries (some n)
          = .error (.fileNotFound (("Checkpoint ") ++ pyStr n ++ " file not found"))) := by
  refine ⟨⟨fun hok => ?_, fun hone => ?_⟩, find_some_of_singleton expr entries n,
    find_some_of_not_one expr entries n⟩
  · by_contra hne
    obtain ⟨v, hv⟩ := hok
    rw [find_some_of_not_one expr entries n hne] at hv
    exact Except.noConfusion hv
  · obtain ⟨name, hname⟩ := List.length_eq_one.mp hone
    exact ⟨(n, some (afterLastUnderscore name)), find_some_of_singleton expr entries n name hname⟩

/-- C3 witness: requesting checkpoint 1 in a directory whose only entry is
checkpoint_21 matches by substring and yields the pair of 1 with "21". -/
theorem c3_requested_checkpoint_selection_witness :
    find_checkpoint_dir ("E") (["checkpoint_21"]) (some 1) = .ok (1, some ("21")) := by
  have h := (c3_requested_checkpoint_selection ("E") (["checkpoint_21"]) 1).2.1
    ("checkpoint_21") (by decide)
  simpa using h

/-- A nonempty all-digit string is accepted by int(...) with a nonnegative value. -/
lemma pyInt_digits (s : String) (h1 : s.data ≠ []) (h2 : ∀ c ∈ s.data, c.isDigit = true) :
    ∃ v, pyInt s = some v ∧ 0 ≤ v := by
  obtain ⟨c, rest, hs⟩ := List.exists_cons_of_ne_nil h1
  have hc : c.isDigit = true := h2 c (by rw [hs]; exact List.mem_cons_self _ _)
  have hminus : ¬ c = '-' := by rintro rfl; exact absurd hc (by decide)
  have hplus : ¬ c = '+' := by rintro rfl; exact absurd hc (by decide)
  have hdig : isDigits (c :: rest) = true := by
    unfold isDigits
    simp only [Bool.and_eq_true, Bool.not_eq_eq_eq_not, Bool.not_true, List.all_eq_true]
    exact ⟨by simp [List.isEmpty], fun x hx => h2 x (by rw [hs]; exact hx)⟩
  refine ⟨(digitsToNat (c :: rest) : Int), ?_, by positivity⟩
  unfold pyInt
  rw [hs]
  simp [hminus, hplus, hdig]

/-- Accumulator invariant of the no-requested-id loop: when every suffix
parses, the loop returns the maximum of the accumulator and all parsed
values, paired with the suffix string that attained it. -/
lemma selectMaxCkpt_parse_all :
    ∀ (l : List String) (acc : Int) (accStr : Option String),
      (∀ d ∈ l, ∃ v, pyInt (afterLastUnderscore d) = some v) →
      ∃ m str, selectMaxCkpt l acc accStr = .ok (m, str)
        ∧ ((m = acc ∧ str = accStr)
            ∨ ∃ d ∈ l, str = some (afterLastUnderscore d) ∧ pyInt (afterLastUnderscore d) = some m)
        ∧ acc ≤ m
        ∧ ∀ d ∈ l, ∀ v, pyInt (afterLastUnderscore d) = some v → v ≤ m := by
  intro l
  induction l with
  | nil =>
    intro acc accStr _
    exact ⟨acc, accStr, rfl, Or.inl ⟨rfl, rfl⟩, le_refl _, by simp⟩
  | cons d rest ih =>
    intro acc accStr hall
    obtain ⟨v, hv⟩ := hall d (List.mem_cons_self _ _)
    have hrest : ∀ d' ∈ rest, ∃ w, pyInt (afterLastUnderscore d') = some w :=
      fun d' hd' => hall d' (List.mem_cons_of_mem _ hd')
    by_cases hlt : acc < v
    · obtain ⟨m, str, heq, hdisj, hle, hbound⟩ := ih v (some (afterLastUnderscore d)) hrest
      refine ⟨m, str, ?_, ?_, by omega, ?_⟩
      · simp [selectMaxCkpt, hv, hlt, heq]
      · rcases hdisj with ⟨hm, hstr⟩ | ⟨d', hd', hstr, hpd⟩
        · exact Or.inr ⟨d, List.mem_cons_self _ _, hstr, by rw [hv, hm]⟩
        · exact Or.inr ⟨d', List.mem_cons_of_mem _ hd', hstr, hpd⟩
      · intro d' hd' w hw
        rcases List.mem_cons.mp hd' with rfl | hd'
        · rw [hv] at hw
          obtain rfl : v = w := by injection hw
          omega
        · exact hbound d' hd' w hw
    · obtain ⟨m, str, heq, hdisj, hle, hbound⟩ := ih acc accStr hrest
      refine ⟨m, str, ?_, ?_, hle, ?_⟩
      · simp [selectMaxCkpt, hv, hlt, heq]
      · rcases hdisj with hleft | ⟨d', hd', hstr, hpd⟩
        · exact Or.inl hleft
        · exact Or.inr ⟨d', List.mem_cons_of_mem _ hd', hstr, hpd⟩
      · intro d' hd' w hw
        rcases List.mem_cons.mp hd' with rfl | hd'
        · rw [hv] at hw
          obtain rfl : v = w := by injection hw
          omega
        · exact hbound d' hd' w hw

/-- Any unparsable suffix anywhere in the list makes the loop raise ValueError. -/
lemma selectMaxCkpt_value_error :
    ∀ (l : List String) (acc : Int) (accStr : Option String),
      (∃ d ∈ l, pyInt (afterLastUnderscore d) = none) →
      selectMaxCkpt l acc accStr = .error .valueError := by
  intro l
  induction l with
  | nil => intro acc accStr h; simp at h
  | cons d rest ih =>
    intro acc accStr h
    cases hv : pyInt (afterLastUnderscore d) with
    | none => simp [selectMaxCkpt, hv]
    | some v =>
      have hr : ∃ d' ∈ rest, pyInt (afterLastUnderscore d') = none := by
        rcases h with ⟨d', hd', hpd'⟩
        rcases List.mem_cons.mp hd' with rfl | hd'
        · rw [hv] at hpd'; exact absurd hpd' (by simp)
        · exact ⟨d', hd', hpd'⟩
      by_cases hlt : acc < v
      · simp [selectMaxCkpt, hv, hlt, ih _ _ hr]
      · simp [selectMaxCkpt, hv, hlt, ih _ _ hr]

/-- The no-requested-id branch of find_checkpoint_dir written out. -/
lemma find_none_eq (expr : String) (entries : List String) :
    find_checkpoint_dir expr entries none
      = selectMaxCkpt (ckptGlob expr entries ("")) (-1) none := rfl

/-- C6: with no requested id and at least one checkpoint entry, all of whose
trailing suffixes are numeric, the selector returns the maximum parsed
suffix value together with the suffix string that attained it. -/
theorem c6_latest_checkpoint_max (expr : String) (entries : List String)
    (h1 : ckptGlob expr entries ("") ≠ [])
    (h2 : ∀ d ∈ ckptGlob expr entries (""), isDigitSuffix d) :
    ∃ m s, find_checkpoint_dir expr entries none = .ok (m, some s)
      ∧ (∃ d ∈ ckptGlob expr entries (""), s = afterLastUnderscore d ∧ pyInt s = some m)
      ∧ ∀ d ∈ ckptGlob expr entries (""), ∀ v, pyInt (afterLastUnderscore d) = some v → v ≤ m := by
  have hparse : ∀ d ∈ ckptGlob expr entries (""), ∃ v, pyInt (afterLastUnderscore d) = some v := by
    intro d hd
    obtain ⟨v, hv, _⟩ := pyInt_digits _ (h2 d hd).1 (h2 d hd).2
    exact ⟨v, hv⟩
  obtain ⟨m, str, heq, hdisj, hle, hbound⟩ :=
    selectMaxCkpt_parse_all (ckptGlob expr entries ("")) (-1) none hparse
  obtain ⟨d0, hd0⟩ := List.exists_mem_of_ne_nil _ h1
  obtain ⟨v0, hv0, hv0pos⟩ := pyInt_digits _ (h2 d0 hd0).1 (h2 d0 hd0).2
  rcases hdisj with ⟨hm, _⟩ | ⟨d, hd, hstr, hpd⟩
  · exfalso
    have := hbound d0 hd0 v0 hv0
    omega
  · refine ⟨m, afterLastUnderscore d, ?_, ⟨d, hd, rfl, hpd⟩, hbound⟩
    rw [find_none_eq, heq, hstr]

/-- C6 witness: the spec's own example - entries checkpoint_5, checkpoint_12
and checkpoint_7 select checkpoint 12 with suffix string "12". -/
theorem c6_latest_checkpoint_max_witness :
    find_checkpoint_dir ("E") (["checkpoint_5", "checkpoint_12", "checkpoint_7"]) none
        = .ok (12, some ("12"))
    ∧ (∃ m s, find_checkpoint_dir ("E") (["checkpoint_5", "checkpoint_12", "checkpoint_7"]) none
          = .ok (m, some s)
        ∧ (∃ d ∈ ckptGlob ("E") (["checkpoint_5", "checkpoint_12", "checkpoint_7"]) (""),
            s = afterLastUnderscore d ∧ pyInt s = some m)
        ∧ ∀ d ∈ ckptGlob ("E") (["checkpoint_5", "checkpoint_12", "checkpoint_7"]) (""),
            ∀ v, pyInt (afterLastUnderscore d) = some v → v ≤ m) :=
  ⟨by decide,
    c6_latest_checkpoint_max ("E") (["checkpoint_5", "checkpoint_12", "checkpoint_7"])
      (by decide) (by decide)⟩

/-- C9: with no requested id and no checkpoint entries at all, the selector
returns the sentinel pair of -1 and none without raising, and main builds
the degenerate names checkpoint_None, checkpoint--1 and ckpt_-1 from it. -/
theorem c9_no_checkpoint_sentinel (expr : String) (entries : List String)
    (h : entries.filter (matchesGlob ("checkpoint_") ("")) = []) :
    find_checkpoint_dir expr entries none = .ok (-1, none)
    ∧ ckpt_dir_of none = "checkpoint_None"
    ∧ ckpt_filename_of (-1) = "checkpoint--1"
    ∧ ckpt_eval_subdir (-1) = "ckpt_-1" := by
  refine ⟨?_, by decide, by decide, by decide⟩
  rw [find_none_eq]
  unfold ckptGlob
  rw [h]
  rfl

/-- C9 witness: a directory holding only an entry named results. -/
theorem c9_no_checkpoint_sentinel_witness :
    find_checkpoint_dir ("E") (["results"]) none = .ok (-1, none)
    ∧ ckpt_dir_of none = "checkpoint_None"
    ∧ ckpt_filename_of (-1) = "checkpoint--1"
    ∧ ckpt_eval_subdir (-1) = "ckpt_-1" :=
  c9_no_checkpoint_sentinel ("E") (["results"]) (by decide)

/-- C10: in the no-requested-id branch, any checkpoint entry whose trailing
suffix is not a decimal number makes the selector raise the unhandled
ValueError of int(...), rather than skipping it or failing with the
checkpoint-not-found error. -/
theorem c10_nonnumeric_suffix_value_error (expr : String) (entries : List String)
    (h : ∃ d ∈ ckptGlob expr entries (""), pyInt (afterLastUnderscore d) = none) :
    find_checkpoint_dir expr entries none = .error .valueError := by
  rw [find_none_eq]
  exact selectMaxCkpt_value_error _ _ _ h

/-- C10 witness: a directory containing only checkpoint_backup. -/
theorem c10_nonnumeric_suffix_value_error_witness :
    find_checkpoint_dir ("E") (["checkpoint_backup"]) none = .error .valueError :=
  c10_nonnumeric_suffix_value_error ("E") (["checkpoint_backup"]) (by decide)

lemma rolloutLoop_recSpec {S O A I : Type} (ctx : EvalSetup S O A I) (i : Nat) :
    ∀ (fuel : Nat) (s : S) (obs : O) (n : Nat) (ep : Int),
      RecSpec n ep (rolloutLoop ctx i fuel s obs n ep).1 := by
  intro fuel
  induction fuel with
  | zero => intro s obs n ep; simp [rolloutLoop, RecSpec]
  | succ fuel ih =>
    intro s obs n ep
    by_cases hd : (ctx.step s (ctx.compute_action obs)).2.2.1 = true
    · simp [rolloutLoop, hd, RecSpec]
    · have hd' : (ctx.step s (ctx.compute_action obs)).2.2.1 = false := by simpa using hd
      simp only [rolloutLoop, hd']
      simp only [Bool.false_eq_true, if_false, RecSpec]
      exact ⟨trivial, trivial, ih _ _ _ _⟩

lemma recSpec_get {I : Type} :
    ∀ (l : List (RolloutRecord I × Int)) (n : Nat) (ep : Int),
      RecSpec n ep l → ∀ (j : Nat) (hj : j < l.length),
        (l.get ⟨j, hj⟩).1.step_number = n + (j + 1)
        ∧ (l.get ⟨j, hj⟩).1.episode_reward
          = ep + ((l.take (j + 1)).map (fun p => p.2)).sum := by
  intro l
  induction l with
  | nil => intro n ep _ j hj; simp at hj
  | cons p rest ih =>
    intro n ep hspec j hj
    obtain ⟨rec, r⟩ := p
    obtain ⟨h1, h2, h3⟩ := hspec
    cases j with
    | zero => simp [h1, h2]
    | succ j =>
      obtain ⟨hs, he⟩ := ih (n + 1) (ep + r) h3 j (by simpa using hj)
      constructor
      · simpa [Nat.add_assoc, Nat.add_comm, Nat.add_left_comm] using hs
      · simp only [List.get_cons_succ, List.take_succ_cons, List.map_cons, List.sum_cons]
        rw [he]
        ring

/-- A k-step episode: from a state at step count n below k, the loop runs to
completion within the fuel, writing records numbered n+1 up to k, all
tagged with the current rollout index. -/
lemma rolloutLoop_run {S O A I : Type} (ctx : EvalSetup S O A I) (μ : S → Nat) (k : Nat)
    (hμ : ∀ s a, μ (ctx.step s a).2.2.2.2 = μ s + 1)
    (hdone : ∀ s a, ((ctx.step s a).2.2.1 = true) ↔ μ s + 1 = k) (i : Nat) :
    ∀ (fuel : Nat) (s : S) (obs : O) (n : Nat) (ep : Int),
      μ s = n → n < k → k - n ≤ fuel →
      (rolloutLoop ctx i fuel s obs n ep).2.2 = true
      ∧ (rolloutLoop ctx i fuel s obs n ep).1.map
          (fun p => (p.1.rollout_num, p.1.step_number))
        = (List.range' (n + 1) (k - n)).map (fun j => (i, j)) := by
  intro fuel
  induction fuel with
  | zero => intro s obs n ep hn hnk hf; omega
  | succ fuel ih =>
    intro s obs n ep hn hnk hf
    by_cases hd : (ctx.step s (ctx.compute_action obs)).2.2.1 = true
    · have hk : n + 1 = k := by
        have := (hdone s (ctx.compute_action obs)).mp hd
        omega
      have hkn : k - n = 1 := by omega
      refine ⟨by simp [rolloutLoop, hd], ?_⟩
      rw [hkn]
      simp [rolloutLoop, hd, List.range'_one]
    · have hd' : (ctx.step s (ctx.compute_action obs)).2.2.1 = false := by simpa using hd
      have hk : n + 1 ≠ k := fun h =>
        hd ((hdone s (ctx.compute_action obs)).mpr (by omega))
      have h1 : μ (ctx.step s (ctx.compute_action obs)).2.2.2.2 = n + 1 := by
        rw [hμ, hn]
      obtain ⟨hok, hmap⟩ := ih (ctx.step s (ctx.compute_action obs)).2.2.2.2
        (ctx.step s (ctx.compute_action obs)).1 (n + 1)
        (ep + (ctx.step s (ctx.compute_action obs)).2.1) h1 (by omega) (by omega)
      refine ⟨by simp [rolloutLoop, hd', hok], ?_⟩
      have hr : k - n = (k - (n + 1)) + 1 := by omega
      rw [hr, List.range'_succ]
      simp only [rolloutLoop, hd']
      simp only [Bool.false_eq_true, if_false, List.map_cons, List.map_map]
      refine congrArg₂ List.cons rfl ?_
      simpa using hmap

lemma writesOf_append {I : Type} (t1 t2 : List (FileEvent I)) :
    writesOf (t1 ++ t2) = writesOf t1 ++ writesOf t2 := by
  simp [writesOf, List.filterMap_append]

lemma writesOf_openF_cons {I : Type} (t : List (FileEvent I)) :
    writesOf (.openF :: t) = writesOf t := by
  simp [writesOf]

lemma writesOf_closeF_cons {I : Type} (t : List (FileEvent I)) :
    writesOf (.closeF :: t) = writesOf t := by
  simp [writesOf]

lemma writesOf_map_write {I : Type} (pairs : List (RolloutRecord I × Int)) :
    writesOf (pairs.map (fun p => .write p.1)) = pairs.map (fun p => p.1) := by
  induction pairs with
  | nil => rfl
  | cons p rest ih => simp [writesOf] at ih ⊢; exact ih

lemma countOpens_append {I : Type} (t1 t2 : List (FileEvent I)) :
    countOpens (t1 ++ t2) = countOpens t1 + countOpens t2 := by
  simp [countOpens, List.countP_append]

lemma countCloses_append {I : Type} (t1 t2 : List (FileEvent I)) :
    countCloses (t1 ++ t2) = countCloses t1 + countCloses t2 := by
  simp [countCloses, List.countP_append]

lemma countOpens_map_write {I : Type} (pairs : List (RolloutRecord I × Int)) :
    countOpens (pairs.map (fun p => .write p.1)) = 0 := by
  induction pairs with
  | nil => rfl
  | cons p rest ih => simp [countOpens, List.countP_cons, ih]

lemma countCloses_map_write {I : Type} (pairs : List (RolloutRecord I × Int)) :
    countCloses (pairs.map (fun p => .write p.1)) = 0 := by
  induction pairs with
  | nil => rfl
  | cons p rest ih => simp [countCloses, List.countP_cons, ih]

lemma countOpens_nil {I : Type} : countOpens ([] : List (FileEvent I)) = 0 := rfl

lemma countCloses_nil {I : Type} : countCloses ([] : List (FileEvent I)) = 0 := rfl

lemma countOpens_cons_openF {I : Type} (t : List (FileEvent I)) :
    countOpens (.openF :: t) = countOpens t + 1 := by
  simp [countOpens, List.countP_cons]

lemma countOpens_cons_closeF {I : Type} (t : List (FileEvent I)) :
    countOpens (.closeF :: t) = countOpens t := by
  simp [countOpens, List.countP_cons]

lemma countCloses_cons_openF {I : Type} (t : List (FileEvent I)) :
    countCloses (.openF :: t) = countCloses t := by
  simp [countCloses, List.countP_cons]

lemma countCloses_cons_closeF {I : Type} (t : List (FileEvent I)) :
    countCloses (.closeF :: t) = countCloses t + 1 := by
  simp [countCloses, List.countP_cons]

/-- Shape of a terminating run: every rollout finishes, the written records
carry rollout indices i0 onward each with step numbers 1 up to k, and the
trace holds exactly one open and one close per rollout with k writes each. -/
lemma runFrom_shape {S O A I : Type} (ctx : EvalSetup S O A I) (μ : S → Nat) (k fuel : Nat)
    (hk : 1 ≤ k) (hfuel : k ≤ fuel)
    (hreset : ∀ s, μ (ctx.reset s).2 = 0)
    (hμ : ∀ s a, μ (ctx.step s a).2.2.2.2 = μ s + 1)
    (hdone : ∀ s a, ((ctx.step s a).2.2.1 = true) ↔ μ s + 1 = k) :
    ∀ (N i0 : Nat) (s : S),
      (runFrom ctx fuel i0 N s).2.2.2 = true
      ∧ (writesOf (runFrom ctx fuel i0 N s).1).map (fun r => (r.rollout_num, r.step_number))
        = ((List.range' i0 N).map (fun i => (List.range' 1 k).map (fun j => (i, j)))).flatten
      ∧ countOpens (runFrom ctx fuel i0 N s).1 = N
      ∧ countCloses (runFrom ctx fuel i0 N s).1 = N
      ∧ countWrites (runFrom ctx fuel i0 N s).1 = N * k := by
  intro N
  induction N with
  | zero =>
    intro i0 s
    exact ⟨rfl, by simp [runFrom, writesOf], rfl, rfl, by simp [runFrom, countWrites, writesOf]⟩
  | succ N ih =>
    intro i0 s
    obtain ⟨hok, hmap⟩ := rolloutLoop_run ctx μ k hμ hdone i0 fuel (ctx.reset s).2
      (ctx.reset s).1 0 0 (hreset s) (by omega) (by omega)
    obtain ⟨rok, rmap, rop, rcl, rwr⟩ :=
      ih (i0 + 1) (rolloutLoop ctx i0 fuel (ctx.reset s).2 (ctx.reset s).1 0 0).2.1
    have hlen : (rolloutLoop ctx i0 fuel (ctx.reset s).2 (ctx.reset s).1 0 0).1.length = k := by
      have h := congrArg List.length hmap
      simpa using h
    have htr : (runFrom ctx fuel i0 (N + 1) s).1
        = .openF :: ((rolloutLoop ctx i0 fuel (ctx.reset s).2 (ctx.reset s).1 0 0).1.map
            (fun p => .write p.1)
          ++ [.closeF])
          ++ (runFrom ctx fuel (i0 + 1) N
              (rolloutLoop ctx i0 fuel (ctx.reset s).2 (ctx.reset s).1 0 0).2.1).1 := by
      simp [runFrom, hok]
    have hgr : (runFrom ctx fuel i0 (N + 1) s).2.2.2
        = (runFrom ctx fuel (i0 + 1) N
            (rolloutLoop ctx i0 fuel (ctx.reset s).2 (ctx.reset s).1 0 0).2.1).2.2.2 := by
      simp [runFrom, hok]
    refine ⟨by rw [hgr]; exact rok, ?_, ?_, ?_, ?_⟩
    · rw [htr, writesOf_append, writesOf_openF_cons, writesOf_append, writesOf_map_write,
        show writesOf ([FileEvent.closeF] : List (FileEvent I)) = [] from rfl,
        List.append_nil, List.map_append, List.map_map]
      rw [List.range'_succ, List.map_cons, List.flatten_cons]
      refine congrArg₂ List.append ?_ rmap
      simpa [Function.comp] using hmap
    · rw [htr, countOpens_append, countOpens_cons_openF, countOpens_append,
        countOpens_map_write, countOpens_cons_closeF, countOpens_nil, rop]
      omega
    · rw [htr, countCloses_append, countCloses_cons_openF, countCloses_append,
        countCloses_map_write, countCloses_cons_closeF, countCloses_nil, rcl]
      omega
    · rw [show countWrites (runFrom ctx fuel i0 (N + 1) s).1
          = (writesOf (runFrom ctx fuel i0 (N + 1) s).1).length from rfl]
      rw [htr, writesOf_append, writesOf_openF_cons, writesOf_append, writesOf_map_write,
        show writesOf ([FileEvent.closeF] : List (FileEvent I)) = [] from rfl,
        List.append_nil, List.length_append, List.length_map, hlen]
      rw [show (writesOf (runFrom ctx fuel (i0 + 1) N
          (rolloutLoop ctx i0 fuel (ctx.reset s).2 (ctx.reset s).1 0 0).2.1).1).length
        = countWrites (runFrom ctx fuel (i0 + 1) N
          (rolloutLoop ctx i0 fuel (ctx.reset s).2 (ctx.reset s).1 0 0).2.1).1 from rfl, rwr,
        Nat.succ_mul]
      omega

/-- Every per-rollout group produced by the runner is the record list of a
single pass of the step loop started at step count 0 and reward 0. -/
lemma runFrom_groups_mem {S O A I : Type} (ctx : EvalSetup S O A I) (fuel : Nat) :
    ∀ (N i0 : Nat) (s : S) (g : List (RolloutRecord I × Int)),
      g ∈ (runFrom ctx fuel i0 N s).2.1 →
      ∃ i s1 obs, g = (rolloutLoop ctx i fuel s1 obs 0 0).1 := by
  intro N
  induction N with
  | zero => intro i0 s g hg; simp [runFrom] at hg
  | succ N ih =>
    intro i0 s g hg
    by_cases hok : (rolloutLoop ctx i0 fuel (ctx.reset s).2 (ctx.reset s).1 0 0).2.2 = true
    · rw [show (runFrom ctx fuel i0 (N + 1) s).2.1
          = (rolloutLoop ctx i0 fuel (ctx.reset s).2 (ctx.reset s).1 0 0).1
            :: (runFrom ctx fuel (i0 + 1) N
                (rolloutLoop ctx i0 fuel (ctx.reset s).2 (ctx.reset s).1 0 0).2.1).2.1
          from by simp [runFrom, hok]] at hg
      rcases List.mem_cons.mp hg with rfl | hg
      · exact ⟨i0, (ctx.reset s).2, (ctx.reset s).1, rfl⟩
      · exact ih (i0 + 1) _ g hg
    · have hok' : (rolloutLoop ctx i0 fuel (ctx.reset s).2 (ctx.reset s).1 0 0).2.2 = false := by
        simpa using hok
      rw [show (runFrom ctx fuel i0 (N + 1) s).2.1
          = [(rolloutLoop ctx i0 fuel (ctx.reset s).2 (ctx.reset s).1 0 0).1]
          from by simp [runFrom, hok']] at hg
      rcases List.mem_singleton.mp hg with rfl
      exact ⟨i0, (ctx.reset s).2, (ctx.reset s).1, rfl⟩

/-- C8: in every record written by the rollout runner, episode_reward equals
the sum of the rewards returned by env.step for steps 1 through that
record's step_number within the same rollout; the sum starts over from 0
with each group, i.e. the accumulator restarts at each new rollout. -/
theorem c8_episode_reward_running_sum {S O A I : Type} (ctx : EvalSetup S O A I)
    (fuel N : Nat) (s0 : S)
    (g : List (RolloutRecord I × Int)) (hg : g ∈ (run_rollouts ctx fuel N s0).2.1)
    (j : Nat) (hj : j < g.length) :
    (g.get ⟨j, hj⟩).1.episode_reward
      = ((g.take ((g.get ⟨j, hj⟩).1.step_number)).map (fun p => p.2)).sum := by
  obtain ⟨i, s1, obs, hgeq⟩ := runFrom_groups_mem ctx fuel N 0 s0 g hg
  subst hgeq
  obtain ⟨hs, he⟩ := recSpec_get _ 0 0 (rolloutLoop_recSpec ctx i fuel s1 obs 0 0) j hj
  rw [hs, he]
  simp

/-- C8 witness: in the 2-step stub run, the second record of the first
rollout carries reward 1 + 2 = 3, the sum of its first two step rewards. -/
theorem c8_episode_reward_running_sum_witness :
    (((run_rollouts (stubEnv 2) 5 1 0).2.1.headI).get ⟨1, by decide⟩).1.episode_reward
      = ((((run_rollouts (stubEnv 2) 5 1 0).2.1.headI).take
          ((((run_rollouts (stubEnv 2) 5 1 0).2.1.headI).get ⟨1, by decide⟩).1.step_number)).map
          (fun p => p.2)).sum :=
  c8_episode_reward_running_sum (stubEnv 2) 5 1 0
    ((run_rollouts (stubEnv 2) 5 1 0).2.1.headI) (by decide) 1 (by decide)

/-- C7: against an environment every episode of which terminates after
exactly k steps (witnessed by a step-count abstraction of the environment
state), a run of N rollouts writes exactly N * k records whose
rollout-number and step-number pairs are, in order, rollout indices 0 to
N-1 each carrying step numbers 1 to k. -/
theorem c7_rollout_record_counts {S O A I : Type} (ctx : EvalSetup S O A I) (μ : S → Nat)
    (k fuel N : Nat) (s0 : S)
    (hk : 1 ≤ k) (hfuel : k ≤ fuel)
    (hreset : ∀ s, μ (ctx.reset s).2 = 0)
    (hμ : ∀ s a, μ (ctx.step s a).2.2.2.2 = μ s + 1)
    (hdone : ∀ s a, ((ctx.step s a).2.2.1 = true) ↔ μ s + 1 = k) :
    (run_rollouts ctx fuel N s0).2.2.2 = true
    ∧ (writesOf (run_rollouts ctx fuel N s0).1).length = N * k
    ∧ (writesOf (run_rollouts ctx fuel N s0).1).map (fun r => (r.rollout_num, r.step_number))
      = ((List.range' 0 N).map (fun i => (List.range' 1 k).map (fun j => (i, j)))).flatten := by
  obtain ⟨h1, h2, h3, h4, h5⟩ := runFrom_shape ctx μ k fuel hk hfuel hreset hμ hdone N 0 s0
  exact ⟨h1, h5, h2⟩

/-- C7 witness: three rollouts of the 2-step stub environment write 6
records, with rollout numbers 0, 1, 2 and step numbers 1, 2 in each. -/
theorem c7_rollout_record_counts_witness :
    (run_rollouts (stubEnv 2) 2 3 0).2.2.2 = true
    ∧ (writesOf (run_rollouts (stubEnv 2) 2 3 0).1).length = 3 * 2
    ∧ (writesOf (run_rollouts (stubEnv 2) 2 3 0).1).map (fun r => (r.rollout_num, r.step_number))
      = ((List.range' 0 3).map (fun i => (List.range' 1 2).map (fun j => (i, j)))).flatten :=
  c7_rollout_record_counts (stubEnv 2) (fun s => s) 2 2 3 0 (by omega) (by omega)
    (fun s => rfl) (fun s a => rfl) (fun s a => by simp [stubEnv])

/-- C1 counterexample: one rollout of a 2-step episode produces a trace with
two write events but a single open event, so the log is not opened,
appended to and closed once per environment step - a per-step
open/append/close cycle would require as many opens as writes. -/
theorem c1_log_open_per_step_counterexample :
    countWrites (run_rollouts (stubEnv 2) 5 1 0).1 = 2
    ∧ countOpens (run_rollouts (stubEnv 2) 5 1 0).1 = 1
    ∧ countOpens (run_rollouts (stubEnv 2) 5 1 0).1
        ≠ countWrites (run_rollouts (stubEnv 2) 5 1 0).1 :=
  ⟨by decide, by decide, by decide⟩

/-- C1 amended: the log file is opened, appended to and closed once per
ROLLOUT, not once per step - a terminating run of N rollouts of k-step
episodes opens the file N times and closes it N times while writing N * k
records, all of one episode's records falling under a single open/close
cycle. -/
theorem c1_log_open_per_rollout {S O A I : Type} (ctx : EvalSetup S O A I) (μ : S → Nat)
    (k fuel N : Nat) (s0 : S)
    (hk : 1 ≤ k) (hfuel : k ≤ fuel)
    (hreset : ∀ s, μ (ctx.reset s).2 = 0)
    (hμ : ∀ s a, μ (ctx.step s a).2.2.2.2 = μ s + 1)
    (hdone : ∀ s a, ((ctx.step s a).2.2.1 = true) ↔ μ s + 1 = k) :
    countOpens (run_rollouts ctx fuel N s0).1 = N
    ∧ countCloses (run_rollouts ctx fuel N s0).1 = N
    ∧ countWrites (run_rollouts ctx fuel N s0).1 = N * k := by
  obtain ⟨h1, h2, h3, h4, h5⟩ := runFrom_shape ctx μ k fuel hk hfuel hreset hμ hdone N 0 s0
  exact ⟨h3, h4, h5⟩

/-- C1 amended witness: three 2-step rollouts of the stub environment open
and close the log three times around six writes. -/
theorem c1_log_open_per_rollout_witness :
    countOpens (run_rollouts (stubEnv 2) 2 3 0).1 = 3
    ∧ countCloses (run_rollouts (stubEnv 2) 2 3 0).1 = 3
    ∧ countWrites (run_rollouts (stubEnv 2) 2 3 0).1 = 3 * 2 :=
  c1_log_open_per_rollout (stubEnv 2) (fun s => s) 2 2 3 0 (by omega) (by omega)
    (fun s => rfl) (fun s a => rfl) (fun s a => by simp [stubEnv])

end SafeRLEval
